import Mathlib

/-!
Verification development for the moderation service core.

This file embeds, shallowly, the parts of the Rust sources that the stated
properties talk about:

* `core/classifier.rs` — `RuleBasedClassifier`, `ProductionClassifier::classify`
  and its result cache;
* `core/signals.rs`   — the signal store, its sweeper, `add_signal`, and the
  rule-matching stage;
* `core/reports.rs`   — `create_report`, `update_report_status` and the report
  signal generation;
* `api/middleware.rs` — the sliding-window rate limiter and its Lua script.

Modelling conventions:

* `f32` confidences are modelled as `Rat`, written with `mkRat` (exact rational
  division); `DateTime<Utc>` timestamps as `Int` seconds (milliseconds for the
  rate limiter, matching the Lua script's units); `Uuid` values as `String`.
* External effects (language detection, ML inference, the counter store, queue
  sends) are oracles passed in explicitly; each call site models the exact
  control flow of the source (`?` propagation, `unwrap_or`, swallowed errors).
* Rust `HashMap`s are modelled as association lists whose `insert` replaces an
  existing key.  Where the source iterates over a `HashMap` (whose iteration
  order is unspecified), the embedding is parametric in the iteration order.
-/

namespace Moderation

/-- Decidable equality for `Except`, needed to evaluate concrete outcomes. -/
instance {ε α : Type} [DecidableEq ε] [DecidableEq α] : DecidableEq (Except ε α) :=
  fun a b =>
    match a, b with
    | .ok x, .ok y =>
      if h : x = y then isTrue (by rw [h])
      else isFalse (by intro hh; cases hh; exact h rfl)
    | .error x, .error y =>
      if h : x = y then isTrue (by rw [h])
      else isFalse (by intro hh; cases hh; exact h rfl)
    | .ok _, .error _ => isFalse (by intro h; cases h)
    | .error _, .ok _ => isFalse (by intro h; cases h)

/-- Minimum of two rationals, via the kernel-reducible comparison `Rat.blt`
(the value of Rust's `f32::min`). -/
def ratMin (a b : Rat) : Rat := if a.blt b then a else b

/-- Maximum of two rationals, via the kernel-reducible comparison `Rat.blt`
(the value of Rust's `f32::max`). -/
def ratMax (a b : Rat) : Rat := if a.blt b then b else a

/-- Labels produced by the classifier (`ClassificationLabel` in
`core/classifier.rs`). -/
inductive ClassificationLabel where
  | Spam | HateSpeech | Harassment | Violence | Csam | Misinformation | Copyright
  | LowQuality | Duplicate | OffTopic
  | Bot | Troll | Impersonation
  | Clean | Educational | Creative
  | Custom (name : String)
  deriving DecidableEq, Repr

/-- Signal kinds (`SignalType` in `core/signals.rs`). -/
inductive SignalType where
  | UserReport | UserBlock | UserMute | UserFlag
  | ContentReport | ContentFlag | ContentDownvote | ContentSpam
  | RateLimitExceeded | BotDetection | SuspiciousActivity | GeographicAnomaly
  | HighConfidenceViolation | ModelUncertainty | AnomalyDetection
  | Custom (name : String)
  deriving DecidableEq, Repr

/-- Signal severities (`SignalSeverity` in `core/signals.rs`). -/
inductive SignalSeverity where
  | Low | Medium | High | Critical
  deriving DecidableEq, Repr

/-- Minimal JSON value model for signal metadata and rule condition values
(`serde_json::Value` in the source). -/
inductive JsonValue where
  | str (s : String)
  | num (q : Rat)
  | null
  deriving DecidableEq, Repr

/-- Model of `serde_json::Value::as_str`. -/
def JsonValue.as_str : JsonValue → Option String
  | .str s => some s
  | _ => none

/-- Model of `serde_json::Value::as_f64`. -/
def JsonValue.as_f64 : JsonValue → Option Rat
  | .num q => some q
  | _ => none

/-! ## Rule-based classifier (`RuleBasedClassifier` in `core/classifier.rs`) -/

/-- Spam pattern list from `RuleBasedClassifier::new`. -/
def spamPatterns : List String :=
  ["buy now", "free $$$", "click here", "limited offer", "act now",
   "make money fast", "work from home", "earn $1000", "guaranteed results"]

/-- Hate-speech pattern list from `RuleBasedClassifier::new`. -/
def hateSpeechPatterns : List String :=
  ["hate", "racist", "bigot", "supremacist", "nazi"]

/-- Violence pattern list from `RuleBasedClassifier::new`. -/
def violencePatterns : List String :=
  ["kill", "murder", "attack", "bomb", "shoot"]

/-- The pattern map built by `RuleBasedClassifier::new`, listed in the source's
insertion order.  The source stores it in a `HashMap`, whose iteration order is
unspecified; functions that iterate over the map are therefore parametrised by
an entry order, and this list is one possible order. -/
def rulePatternMap : List (ClassificationLabel × List String) :=
  [(.Spam, spamPatterns), (.HateSpeech, hateSpeechPatterns),
   (.Violence, violencePatterns)]

/-- Lowercased character sequence of a string (model of `to_lowercase` /
the `(?i)` regex flag; the patterns and inputs used here are ASCII). -/
def lowerChars (s : String) : List Char := s.toList.map Char.toLower

/-- Test whether `p` occurs as a run of consecutive characters in a list. -/
def occursInChars (p : List Char) : List Char → Bool
  | [] => p.isEmpty
  | c :: rest => p.isPrefixOf (c :: rest) || occursInChars p rest

/-- Case-insensitive substring test: the semantics of the compiled regex
`(?i)p` for a literal pattern `p` with no metacharacters. -/
def ciSubstring (p t : String) : Bool :=
  occursInChars (lowerChars p) (lowerChars t)

/-- Match semantics of the compiled pattern regexes.  Each pattern `p` is
compiled as `(?i){p}` (`RuleBasedClassifier::new`).  Two spam patterns contain
`$`, which the regex engine treats as an end-of-haystack anchor, not a literal
dollar sign: `free $$$` compiles to `free ` followed by three zero-width
end anchors, so it matches exactly the texts ending in `free `; `earn $1000`
requires the literal `1000` after an end anchor and therefore never matches.
All other patterns are literal, giving case-insensitive substring search. -/
def patternMatches (p t : String) : Bool :=
  if p = "free $$$" then ("free ".toList).isSuffixOf (lowerChars t)
  else if p = "earn $1000" then false
  else ciSubstring p t

/-- Label plus confidence, the substance of the result built by
`RuleBasedClassifier::classify`. -/
structure RuleResult where
  label : ClassificationLabel
  confidence : Rat
  deriving DecidableEq, Repr

/-- Number of patterns in `ps` matching `text` (the inner counting loop of
`RuleBasedClassifier::classify`), parametric in the match predicate `m`. -/
def countMatches (m : String → String → Bool) (text : String)
    (ps : List String) : Nat :=
  (ps.filter (fun p => m p text)).length

/-- One iteration of the scoring loop of `RuleBasedClassifier::classify`:
if the entry has any matching pattern, its confidence is
`min (matches / |patterns|) 0.9`, and it replaces the running best exactly
when strictly greater. -/
def ruleStep (m : String → String → Bool) (text : String)
    (acc : ClassificationLabel × Rat) (entry : ClassificationLabel × List String) :
    ClassificationLabel × Rat :=
  let nMatches := countMatches m text entry.2
  if 0 < nMatches then
    let conf := ratMin (mkRat nMatches entry.2.length) (mkRat 9 10)
    if acc.2.blt conf then (entry.1, conf) else acc
  else acc

/-- The clamped confidence `min (matches / |patterns|) 0.9` an entry would
contribute. -/
def clampedConf (m : String → String → Bool) (text : String)
    (entry : ClassificationLabel × List String) : Rat :=
  ratMin (mkRat (countMatches m text entry.2) entry.2.length) (mkRat 9 10)

/-- Body of `RuleBasedClassifier::classify`: fold the scoring loop over the
pattern-map entries (in iteration order `pats`) starting from
`(Clean, 0.0)`, then clamp the final confidence from below by `0.1`
(`best_confidence.max(0.1)` in the source). -/
def ruleClassify (m : String → String → Bool)
    (pats : List (ClassificationLabel × List String)) (text : String) :
    RuleResult :=
  let best := pats.foldl (ruleStep m text) (ClassificationLabel.Clean, 0)
  ⟨best.1, ratMax best.2 (mkRat 1 10)⟩

/-- The rule classifier as constructed by `RuleBasedClassifier::new`, with the
pattern map iterated in insertion order. -/
def RuleBasedClassifier.classify (text : String) : RuleResult :=
  ruleClassify patternMatches rulePatternMap text

/-! ## Production classifier (`ProductionClassifier` in `core/classifier.rs`) -/

/-- The classifier configuration fields read by `classify`
(`ClassifierConfig`). -/
structure ClassifierConfig where
  min_confidence_threshold : Rat
  enable_ml_inference : Bool
  enable_rule_based : Bool
  enable_signal_processing : Bool
  batch_processing : Bool
  cache_results : Bool
  deriving DecidableEq, Repr

/-- The request fields read by `classify` (`ClassificationRequest`; the
`content_type`, `context` and `priority` fields are never branched on by the
classification path and are omitted). -/
structure ClassificationRequest where
  content_id : String
  user_id : String
  text : String
  language_hint : Option String
  deriving DecidableEq, Repr

/-- The result fields the properties talk about (`ClassificationResult`; the
random `id`, timestamps and the metadata copy of the request context are
omitted, and the emitted signals are recorded by type rather than by their
random ids). -/
structure ClassificationResultCore where
  content_id : String
  user_id : String
  label : ClassificationLabel
  confidence : Rat
  language : String
  detected_language : Option String
  model_version : String
  signals : List SignalType
  deriving DecidableEq, Repr

/-- Oracles for the external calls `classify` makes: the configured supported
language list, the outcome of `LanguageDetector::detect`, the outcome of
`MlModelManager::classify_text` and the outcome of
`MlModelManager::get_model_version`.  Each is an `Except` because the source
propagates their errors with `?`. -/
structure ClassifyEnv where
  supported_languages : List String
  detectOutcome : Except String String
  mlOutcome : Except String (ClassificationLabel × Rat)
  modelVersion : Except String String

/-- The classifier result cache: a plain map from `content_id` to result
(`cache: Arc<RwLock<HashMap<String, ClassificationResult>>>`), modelled as an
association list. -/
abbrev Cache := List (String × ClassificationResultCore)

/-- Cache lookup (`HashMap::get`). -/
def cacheLookup (c : Cache) (k : String) : Option ClassificationResultCore :=
  (c.find? (fun e => e.1 = k)).map (fun e => e.2)

/-- Cache insertion (`HashMap::insert`): replaces any entry with the same key. -/
def cacheInsert (c : Cache) (k : String) (v : ClassificationResultCore) : Cache :=
  (k, v) :: c.filter (fun e => e.1 ≠ k)

/-- Model of `LanguageDetector::is_supported`: membership of the lowercased
code in the configured list. -/
def is_supported (env : ClassifyEnv) (code : String) : Bool :=
  env.supported_languages.any (fun s => s.toList = lowerChars code)

/-- Model of `ProductionClassifier::detect_language`: a supported hint is
returned as-is, otherwise the detector is consulted. -/
def detect_language (env : ClassifyEnv) (hint : Option String) :
    Except String String :=
  match hint with
  | some h => if is_supported env h then .ok h else env.detectOutcome
  | none => env.detectOutcome

/-- Model of `ProductionClassifier::process_with_ml`: `(Clean, 0.5)` when ML
inference is disabled, otherwise the ML oracle's outcome (whose error the
source propagates with `?`). -/
def process_with_ml (cfg : ClassifierConfig) (env : ClassifyEnv) :
    Except String (ClassificationLabel × Rat) :=
  if cfg.enable_ml_inference then env.mlOutcome
  else .ok (ClassificationLabel.Clean, mkRat 1 2)

/-- Model of `SignalProcessor::process_content_signals` as invoked from
`classify`: a `HighConfidenceViolation` signal when the final confidence
exceeds `0.8`, and a `ContentSpam` signal when the final label is `Spam`
(signals recorded by type; ids in the source are fresh UUIDs). -/
def process_content_signals (label : ClassificationLabel) (confidence : Rat) :
    List SignalType :=
  (if (mkRat 4 5).blt confidence then [SignalType.HighConfidenceViolation] else [])
    ++ (if label = ClassificationLabel.Spam then [SignalType.ContentSpam] else [])

/-- Model of `ProductionClassifier::process_signals`: the empty list when
signal processing is disabled. -/
def process_signals (cfg : ClassifierConfig) (label : ClassificationLabel)
    (confidence : Rat) : List SignalType :=
  if cfg.enable_signal_processing then process_content_signals label confidence
  else []

/-- Everything observable about one `classify` call: the returned value, the
cache afterwards, and whether the ML inference layer was invoked. -/
structure ClassifyOutcome where
  result : Except String ClassificationResultCore
  cache : Cache
  mlCalled : Bool

/-- Model of `ProductionClassifier::classify` (`core/classifier.rs`,
`impl ContentClassifier for ProductionClassifier`), step by step:
cache probe keyed by `content_id`; language detection (`?`); ML classification
(`?`); rule-based classification when enabled, else `(Clean, 0.5)`; the fusion
rule `ml_confidence > min_confidence_threshold`; signal emission; model
version lookup (`?`); assembly and cache insertion keyed by `content_id`. -/
def ProductionClassifier.classify (cfg : ClassifierConfig) (env : ClassifyEnv)
    (cache : Cache) (req : ClassificationRequest) : ClassifyOutcome :=
  match (if cfg.cache_results then cacheLookup cache req.content_id else none) with
  | some cached => ⟨.ok cached, cache, false⟩
  | none =>
    match detect_language env req.language_hint with
    | .error e => ⟨.error e, cache, false⟩
    | .ok language =>
      let detected_language := if req.language_hint.isNone then some language else none
      match process_with_ml cfg env with
      | .error e => ⟨.error e, cache, cfg.enable_ml_inference⟩
      | .ok (ml_label, ml_confidence) =>
        let rule_result :=
          if cfg.enable_rule_based then RuleBasedClassifier.classify req.text
          else ⟨ClassificationLabel.Clean, mkRat 1 2⟩
        let fused :=
          if cfg.min_confidence_threshold.blt ml_confidence then (ml_label, ml_confidence)
          else (rule_result.label, rule_result.confidence)
        let signals := process_signals cfg fused.1 fused.2
        match env.modelVersion with
        | .error e => ⟨.error e, cache, cfg.enable_ml_inference⟩
        | .ok version =>
          let result : ClassificationResultCore :=
            { content_id := req.content_id
              user_id := req.user_id
              label := fused.1
              confidence := fused.2
              language := language
              detected_language := detected_language
              model_version := version
              signals := signals }
          let cache' :=
            if cfg.cache_results then cacheInsert cache req.content_id result
            else cache
          ⟨.ok result, cache', cfg.enable_ml_inference⟩

/-! ## Signal store (`SignalProcessor` in `core/signals.rs`) -/

/-- Signal record (`Signal` in `core/signals.rs`). -/
structure Signal where
  id : String
  signal_type : SignalType
  source : String
  content_id : String
  user_id : String
  severity : SignalSeverity
  confidence : Rat
  metadata : List (String × JsonValue)
  timestamp : Int
  expires_at : Option Int
  deriving DecidableEq, Repr

/-- The signal store's keyed map `id -> Signal`
(`signals: Arc<RwLock<HashMap<Uuid, Signal>>>`). -/
abbrev SignalMap := List (String × Signal)

/-- Map insertion (`HashMap::insert`): replaces any entry with the same key. -/
def signalInsert (m : SignalMap) (k : String) (s : Signal) : SignalMap :=
  (k, s) :: m.filter (fun e => e.1 ≠ k)

/-- Model of `SignalProcessor::get_signal`: a plain map lookup, with no
expiry check. -/
def get_signal (m : SignalMap) (id : String) : Option Signal :=
  (m.find? (fun e => e.1 = id)).map (fun e => e.2)

/-- Query filter (`SignalFilter` in `core/signals.rs`). -/
structure SignalFilter where
  signal_types : Option (List SignalType)
  severity : Option SignalSeverity
  user_id : Option String
  content_id : Option String
  time_range : Option (Int × Int)
  deriving DecidableEq, Repr

/-- Model of `SignalProcessor::matches_filter`: the source body is a stub that
returns `true` for every signal and filter. -/
def matches_filter (_s : Signal) (_f : SignalFilter) : Bool := true

/-- Model of `SignalProcessor::get_signals`: all stored values, filtered by
`matches_filter` when a filter is given; again no expiry check. -/
def get_signals (m : SignalMap) (f : Option SignalFilter) : List Signal :=
  match f with
  | some f => (m.map (fun e => e.2)).filter (fun s => matches_filter s f)
  | none => m.map (fun e => e.2)

/-- Model of one pass of the sweeper spawned by
`SignalProcessor::start_cleanup_loop`: `retain` keeps a signal iff it has no
`expires_at` or `expires_at > now`. -/
def cleanup_sweep (now : Int) (m : SignalMap) : SignalMap :=
  m.filter (fun e =>
    match e.2.expires_at with
    | some t => decide (now < t)
    | none => true)

/-- Everything observable about one `SignalProcessor::add_signal` call: the
returned value, the map afterwards, and whether the signal reached the
processing queue.  `queueSendFails` is the oracle for the outcome of
`signal_tx.send` (the source only logs its error). -/
structure AddSignalOutcome where
  result : Except String Unit
  store : SignalMap
  enqueued : Bool

/-- Model of `SignalProcessor::add_signal`: insert into the map, attempt the
queue send (failure swallowed), return `Ok(())` unconditionally. -/
def add_signal (store : SignalMap) (queueSendFails : Bool) (s : Signal) :
    AddSignalOutcome :=
  ⟨.ok (), signalInsert store s.id s, !queueSendFails⟩

/-! ## Rule engine (`SignalRule` matching in `core/signals.rs`) -/

/-- Comparison operators of a rule condition (`ConditionOperator`).  The
source's `condition_matches_signal` never reads this field. -/
inductive ConditionOperator where
  | Equals | NotEquals | GreaterThan | LessThan
  | Contains | NotContains | In | NotIn | Regex
  deriving DecidableEq, Repr

/-- Connectives declared on a rule condition (`LogicalOperator`). -/
inductive LogicalOperator where
  | And | Or
  deriving DecidableEq, Repr

/-- One rule condition (`SignalCondition`). -/
structure SignalCondition where
  field : String
  operator : ConditionOperator
  value : JsonValue
  logical_operator : LogicalOperator
  deriving DecidableEq, Repr

/-- Actions attached to a rule (`ActionType`; parameters omitted, they are
never read by the matching stage). -/
inductive ActionType where
  | BlockUser | RemoveContent | FlagForReview | SendNotification
  | EscalateToSpecialist | UpdateUserScore | TriggerInvestigation
  | Custom (name : String)
  deriving DecidableEq, Repr

/-- A signal rule (`SignalRule`; descriptive fields omitted). -/
structure SignalRule where
  id : String
  signal_types : List SignalType
  conditions : List SignalCondition
  actions : List ActionType
  priority : Nat
  enabled : Bool
  deriving DecidableEq, Repr

/-- The `format!("{:?}", severity)` string of a severity. -/
def severityName : SignalSeverity → String
  | .Low => "Low"
  | .Medium => "Medium"
  | .High => "High"
  | .Critical => "Critical"

/-- Model of `SignalProcessor::condition_matches_signal`: only the fields
`severity` (debug-string equality against the condition value's string) and
`confidence` (signal confidence at least the condition value's number) are
recognised; anything else never matches.  Neither `operator` nor
`logical_operator` is read. -/
def condition_matches_signal (s : Signal) (c : SignalCondition) : Bool :=
  if c.field = "severity" then severityName s.severity = c.value.as_str.getD ""
  else if c.field = "confidence" then
    match c.value.as_f64 with
    | some conf => !s.confidence.blt conf
    | none => false
  else false

/-- Model of `SignalProcessor::rule_matches_signal`: the signal's type must be
in the rule's `signal_types`, and then every condition must individually
match — the loop returns `false` on the first non-matching condition. -/
def rule_matches_signal (s : Signal) (r : SignalRule) : Bool :=
  if !r.signal_types.contains s.signal_type then false
  else r.conditions.all (fun c => condition_matches_signal s c)

/-- Model of `SignalProcessor::apply_rules`: concatenated actions of every
enabled matching rule, in rule order. -/
def apply_rules (s : Signal) (rules : List SignalRule) : List ActionType :=
  rules.foldl
    (fun acc r =>
      if r.enabled && rule_matches_signal s r then acc ++ r.actions else acc)
    []

/-- Modelled from the spec: conditions evaluated as a left-to-right fold using
each condition's declared logical operator (`And`/`Or`), with no precedence
promotion; an empty condition list matches. -/
def specConditionFold (s : Signal) : List SignalCondition → Bool
  | [] => true
  | c :: rest =>
    rest.foldl
      (fun acc c' =>
        match c'.logical_operator with
        | .And => acc && condition_matches_signal s c'
        | .Or => acc || condition_matches_signal s c')
      (condition_matches_signal s c)

/-- Modelled from the spec: a rule matches a signal iff the signal's type is in
the rule's `signal_types` and the left-to-right fold of its conditions under
their declared logical operators evaluates to true. -/
def spec_rule_matches (s : Signal) (r : SignalRule) : Bool :=
  r.signal_types.contains s.signal_type && specConditionFold s r.conditions

/-! ## Report manager (`ReportManager` in `core/reports.rs`) -/

/-- Report categories (`ReportType`).  The source enumeration lists
`Harassment` twice (a slip); the duplicate collapses to a single variant. -/
inductive ReportType where
  | HateSpeech | Harassment | Violence | Spam | Misinformation | Copyright
  | Nsfw | ChildSafety
  | Impersonation | Bot | Troll | Threats
  | ReportAbuse | SpamReports | FalseReporting
  | Custom (name : String)
  deriving DecidableEq, Repr

/-- Report lifecycle states (`ReportStatus`). -/
inductive ReportStatus where
  | Pending | UnderInvestigation | Escalated | Resolved | Dismissed
  | RequiresMoreInfo
  deriving DecidableEq, Repr

/-- Report priorities (`ReportPriority`). -/
inductive ReportPriority where
  | Low | Normal | High | Critical | Urgent
  deriving DecidableEq, Repr

/-- Evidence kinds (`EvidenceType`). -/
inductive EvidenceType where
  | Text | Image | Link | Video | Audio | Screenshot | Log | Other
  deriving DecidableEq, Repr

/-- One piece of evidence (`Evidence`; the opaque payload fields are collapsed
into `content`). -/
structure Evidence where
  evidence_type : EvidenceType
  content : String
  deriving DecidableEq, Repr

/-- A stored user report (`UserReport`). -/
structure UserReport where
  id : String
  reporter_id : String
  target_id : String
  content_id : Option String
  report_type : ReportType
  reason : String
  description : Option String
  evidence : List Evidence
  status : ReportStatus
  priority : ReportPriority
  assigned_specialist : Option String
  created_at : Int
  updated_at : Int
  resolved_at : Option Int
  metadata : List (String × JsonValue)
  deriving DecidableEq, Repr

/-- Report creation request (`CreateReportRequest`). -/
structure CreateReportRequest where
  reporter_id : String
  target_id : String
  content_id : Option String
  report_type : ReportType
  reason : String
  description : Option String
  evidence : List Evidence
  metadata : List (String × JsonValue)
  deriving DecidableEq, Repr

/-- The report manager configuration field read by the modelled operations
(`ReportManagerConfig`; the other fields are never read by them). -/
structure ReportManagerConfig where
  max_reports_per_user : Nat
  deriving DecidableEq, Repr

/-- The in-memory report map `id -> UserReport`. -/
abbrev ReportMap := List (String × UserReport)

/-- Report map lookup (`HashMap::get`). -/
def lookupReport (m : ReportMap) (id : String) : Option UserReport :=
  (m.find? (fun e => e.1 = id)).map (fun e => e.2)

/-- Report map insertion (`HashMap::insert`): replaces any entry with the same
key. -/
def insertReport (m : ReportMap) (id : String) (r : UserReport) : ReportMap :=
  (id, r) :: m.filter (fun e => e.1 ≠ id)

/-- Events published on the report manager's broadcast channel, recorded by
their discriminating fields (the source sends JSON objects; the event sender
is modelled as always configured). -/
inductive ReportEvent where
  | created (report_id : String)
  | status_updated (report_id : String) (status : ReportStatus) (updated_at : Int)
  deriving DecidableEq, Repr

/-- Whether a string is empty after trimming whitespace
(`reason.trim().is_empty()`; ASCII whitespace model). -/
def trimmedEmpty (s : String) : Bool :=
  s.toList.all (fun c => c.isWhitespace)

/-- Model of `ReportManager::calculate_priority`. -/
def calculate_priority (req : CreateReportRequest) : ReportPriority :=
  match req.report_type with
  | .ChildSafety => .Critical
  | .Violence => .Urgent
  | .Threats => .Urgent
  | .HateSpeech => .High
  | .Harassment => .High
  | .Spam => .Normal
  | .Misinformation => .Normal
  | _ => .Low

/-- Model of `ReportManager::map_priority_to_severity`. -/
def map_priority_to_severity : ReportPriority → SignalSeverity
  | .Low => .Low
  | .Normal => .Medium
  | .High => .High
  | .Critical => .Critical
  | .Urgent => .Critical

/-- Metadata insertion (`HashMap::insert` on the metadata map). -/
def metaInsert (m : List (String × JsonValue)) (k : String) (v : JsonValue) :
    List (String × JsonValue) :=
  (k, v) :: m.filter (fun e => e.1 ≠ k)

/-- Metadata lookup. -/
def metaLookup (m : List (String × JsonValue)) (k : String) : Option JsonValue :=
  (m.find? (fun e => e.1 = k)).map (fun e => e.2)

/-- The string `serde_json::json!` produces for a report type (unit variants
serialise as their name; `Custom` carries its payload). -/
def reportTypeName : ReportType → String
  | .HateSpeech => "HateSpeech"
  | .Harassment => "Harassment"
  | .Violence => "Violence"
  | .Spam => "Spam"
  | .Misinformation => "Misinformation"
  | .Copyright => "Copyright"
  | .Nsfw => "Nsfw"
  | .ChildSafety => "ChildSafety"
  | .Impersonation => "Impersonation"
  | .Bot => "Bot"
  | .Troll => "Troll"
  | .Threats => "Threats"
  | .ReportAbuse => "ReportAbuse"
  | .SpamReports => "SpamReports"
  | .FalseReporting => "FalseReporting"
  | .Custom name => name

/-- Model of `ReportManager::generate_report_signals`, which builds exactly one
signal from an accepted report: type `UserReport`, source `user_report`,
`content_id` defaulted to the empty string, `user_id` the report's target,
severity mapped from the priority, confidence `0.8`, metadata extended with
`report_id`, `report_type` and `reporter_id`, expiring 30 days out.
`sid` stands for the fresh UUID the source draws. -/
def generate_report_signal (now : Int) (sid : String) (r : UserReport) : Signal :=
  { id := sid
    signal_type := .UserReport
    source := "user_report"
    content_id := r.content_id.getD ""
    user_id := r.target_id
    severity := map_priority_to_severity r.priority
    confidence := mkRat 4 5
    metadata :=
      metaInsert
        (metaInsert (metaInsert r.metadata "report_id" (.str r.id))
          "report_type" (.str (reportTypeName r.report_type)))
        "reporter_id" (.str r.reporter_id)
    timestamp := now
    expires_at := some (now + 30 * 86400) }

/-- Model of `ReportManager::check_rate_limits`: the number of stored reports
by the same reporter created within the last 24 hours must be below
`max_reports_per_user`. -/
def check_rate_limits (cfg : ReportManagerConfig) (reports : ReportMap)
    (now : Int) (reporter_id : String) : Bool :=
  ((reports.map (fun e => e.2)).filter
      (fun r => r.reporter_id = reporter_id && decide (now - 86400 < r.created_at))).length
    < cfg.max_reports_per_user

/-- Everything observable about one `ReportManager::create_report` call. -/
structure CreateReportOutcome where
  result : Except String UserReport
  reports : ReportMap
  emitted : List Signal
  events : List ReportEvent

/-- Model of `ReportManager::create_report`: validation (non-blank reason,
non-empty evidence), the local rate limit, construction of the `Pending`
report, in-memory insertion, the single derived signal, and the
`report.created` event.  `newReportId`/`newSignalId` stand for the fresh UUIDs
the source draws; the durable-store write and the no-op specialist
auto-assignment have no observable effect on these outputs. -/
def create_report (cfg : ReportManagerConfig) (reports : ReportMap) (now : Int)
    (newReportId newSignalId : String) (req : CreateReportRequest) :
    CreateReportOutcome :=
  if trimmedEmpty req.reason then
    ⟨.error "Report reason cannot be empty", reports, [], []⟩
  else if req.evidence.isEmpty then
    ⟨.error "Report must include evidence", reports, [], []⟩
  else if !check_rate_limits cfg reports now req.reporter_id then
    ⟨.error "Rate limit exceeded for reports", reports, [], []⟩
  else
    let r : UserReport :=
      { id := newReportId
        reporter_id := req.reporter_id
        target_id := req.target_id
        content_id := req.content_id
        report_type := req.report_type
        reason := req.reason
        description := req.description
        evidence := req.evidence
        status := .Pending
        priority := calculate_priority req
        assigned_specialist := none
        created_at := now
        updated_at := now
        resolved_at := none
        metadata := req.metadata }
    ⟨.ok r, insertReport reports newReportId r,
      [generate_report_signal now newSignalId r], [.created r.id]⟩

/-- Everything observable about one `ReportManager::update_report_status`
call. -/
structure UpdateStatusOutcome where
  result : Except String Unit
  reports : ReportMap
  events : List ReportEvent

/-- Model of `ReportManager::update_report_status`: when the report exists, set
the status, refresh `updated_at`, set `resolved_at` iff the new status is
`Resolved` or `Dismissed`, and emit `report.status_updated`; when it does not,
do nothing.  Either way the call returns `Ok(())` — the source performs no
lifecycle validation and reports no missing-id error. -/
def update_report_status (reports : ReportMap) (now : Int) (id : String)
    (status : ReportStatus) : UpdateStatusOutcome :=
  match lookupReport reports id with
  | some r =>
    let r' :=
      { r with
          status := status
          updated_at := now
          resolved_at :=
            if status = .Resolved ∨ status = .Dismissed then some now
            else r.resolved_at }
    ⟨.ok (), insertReport reports id r', [.status_updated id status now]⟩
  | none => ⟨.ok (), reports, []⟩

/-- Modelled from the spec: the report status lifecycle
`Pending → (UnderInvestigation | Dismissed) → (Escalated | Resolved |
RequiresMoreInfo) → (Resolved | Dismissed)`, read literally as the allowed
successors of each status. -/
def specSuccessors : ReportStatus → List ReportStatus
  | .Pending => [.UnderInvestigation, .Dismissed]
  | .UnderInvestigation => [.Escalated, .Resolved, .RequiresMoreInfo]
  | .Dismissed => [.Escalated, .Resolved, .RequiresMoreInfo]
  | .Escalated => [.Resolved, .Dismissed]
  | .RequiresMoreInfo => [.Resolved, .Dismissed]
  | .Resolved => [.Resolved, .Dismissed]

/-- Modelled from the spec: a requested status is a valid transition iff it is
a successor of the current status in the lifecycle. -/
def validTransition (fromStatus toStatus : ReportStatus) : Bool :=
  (specSuccessors fromStatus).contains toStatus

/-! ## Rate limiter (`api/middleware.rs`) -/

/-- The counter store's per-key state: the sorted-set entries (each member is
`tostring(score)`, so members are in bijection with their integer millisecond
scores and the set is modelled by its list of distinct scores) plus the key's
pending expiry as set by `PEXPIRE`. -/
structure CounterState where
  entries : List Int
  expiry_ms : Option Int
  deriving DecidableEq, Repr

/-- Result triple of the Lua script: the allowed flag (`0`/`1`), the count it
reports, and the state it leaves behind. -/
structure ScriptOutcome where
  allowed : Int
  count : Int
  state : CounterState
  deriving DecidableEq, Repr

/-- Model of `LUA_SLIDING_WINDOW`: `ZREMRANGEBYSCORE key 0 (now-window)`
removes the scores in `[0, now_ms - window_ms]`; if the remaining cardinality
is at least `limit`, deny and change nothing else; otherwise `ZADD` the member
`now_ms` with score `now_ms` (a set insert — re-adding an existing member
leaves the set unchanged), `PEXPIRE` the key to `window_ms`, and allow. -/
def sliding_window_script (now_ms window_ms limit : Int) (s : CounterState) :
    ScriptOutcome :=
  let pruned := s.entries.filter (fun x => !decide (0 ≤ x ∧ x ≤ now_ms - window_ms))
  let count : Int := pruned.length
  if limit ≤ count then ⟨0, count, ⟨pruned, s.expiry_ms⟩⟩
  else
    ⟨1, count + 1,
      ⟨if pruned.contains now_ms then pruned else now_ms :: pruned,
        some window_ms⟩⟩

/-- Model of `check_allow` composed with the `.unwrap_or(true)` at its call
site in `RateLimitService::call`: `none` stands for any counter-store failure
(connection acquisition or script invocation), in which case the request is
admitted and no state is reachable; otherwise the script decides. -/
def rate_limit_check (store : Option CounterState) (now_ms window_ms limit : Int) :
    Bool × Option CounterState :=
  match store with
  | none => (true, none)
  | some s =>
    let o := sliding_window_script now_ms window_ms limit s
    (o.allowed == 1, some o.state)

/-- What the middleware does with a request: pass it to the inner service, or
answer `429 Too Many Requests` itself. -/
inductive RLDecision where
  | admitted
  | tooManyRequests
  deriving DecidableEq, Repr

/-- Model of `RateLimitService::call`: admit iff `rate_limit_check` allows. -/
def rate_limit_call (store : Option CounterState) (now_ms window_ms limit : Int) :
    RLDecision × Option CounterState :=
  let (allowed, store') := rate_limit_check store now_ms window_ms limit
  (if allowed then .admitted else .tooManyRequests, store')

/-! ## General lemmas about the embedded operations -/

theorem ratMin_eq_min (a b : Rat) : ratMin a b = min a b := by
  rw [ratMin]
  split
  · next h => exact (min_eq_left (le_of_lt h)).symm
  · next h => exact (min_eq_right (le_of_not_lt h)).symm

theorem ratMax_eq_max (a b : Rat) : ratMax a b = max a b := by
  rw [ratMax]
  split
  · next h => exact (max_eq_right (le_of_lt h)).symm
  · next h => exact (max_eq_left (le_of_not_lt h)).symm

/-- Classifying the empty string with the rule engine: no pattern matches, so
the result is `Clean` with confidence `0.1`. -/
theorem ruleClassify_empty :
    RuleBasedClassifier.classify "" = ⟨ClassificationLabel.Clean, mkRat 1 10⟩ := by
  decide

/-- Looking up the key just inserted into the report map yields the inserted
report. -/
theorem lookupReport_insertReport_self (m : ReportMap) (id : String)
    (r : UserReport) : lookupReport (insertReport m id r) id = some r := by
  simp [lookupReport, insertReport]

/-- Looking up the id of the signal just inserted into the signal map yields
that signal. -/
theorem get_signal_signalInsert_self (m : SignalMap) (s : Signal) :
    get_signal (signalInsert m s.id s) s.id = some s := by
  simp [get_signal, signalInsert]

/-! ## C1 — ML failure handling in `ProductionClassifier::classify` -/

/-- C1 (counterexample): a concrete request with rule-based classification
enabled whose ML call fails.  `classify` returns the ML error — not a
successful `ClassificationResult` carrying the rule-based label — so the
claimed fallback does not exist. -/
theorem c1_counterexample :
    (ProductionClassifier.classify
        ⟨mkRat 1 2, true, true, true, false, false⟩
        ⟨["en"], .ok "en", .error "model unavailable", .ok "1.0.0"⟩
        [] ⟨"p1", "u1", "hello", some "en"⟩).result
      = .error "model unavailable" := by
  decide

/-- C1 (amended): whenever the cache does not answer, language detection
succeeds, ML inference is enabled and the ML call returns an error,
`classify` propagates exactly that error to the caller — even when rule-based
classification is enabled.  The `?` on `process_with_ml` in the source aborts
the call before the rule engine's result can be used. -/
theorem c1_ml_error_propagates (cfg : ClassifierConfig) (env : ClassifyEnv)
    (cache : Cache) (req : ClassificationRequest) (lang e : String)
    (hml : cfg.enable_ml_inference = true)
    ( _hrb : cfg.enable_rule_based = true)
    (hcache : (if cfg.cache_results then cacheLookup cache req.content_id else none)
      = none)
    (hlang : detect_language env req.language_hint = .ok lang)
    (herr : env.mlOutcome = .error e) :
    (ProductionClassifier.classify cfg env cache req).result = .error e := by
  simp only [ProductionClassifier.classify, hcache, hlang, process_with_ml, hml,
    if_true, herr]

/-- C1 (witness): the amended theorem evaluated on a concrete failing ML call. -/
theorem c1_witness :
    (ProductionClassifier.classify
        ⟨mkRat 1 2, true, true, true, false, false⟩
        ⟨["en"], .ok "en", .error "down", .ok "1.0.0"⟩
        [] ⟨"p9", "u9", "hi", some "en"⟩).result
      = .error "down" :=
  c1_ml_error_propagates _ _ _ _ "en" "down" rfl rfl (by decide) (by decide) rfl

/-! ## C2 — empty-text handling in `ProductionClassifier::classify` -/

/-- C2 (counterexample): a concrete empty-text request with ML inference
enabled.  `classify` invokes the ML layer (`mlCalled = true`) and, since the
ML confidence `0.9` exceeds the threshold `0.5`, returns the ML result
`(Spam, 0.9)` — not `Clean` with confidence `0.1`.  There is no empty-text
special case in the source. -/
theorem c2_counterexample :
    (ProductionClassifier.classify
          ⟨mkRat 1 2, true, true, false, false, false⟩
          ⟨["en"], .ok "en", .ok (.Spam, mkRat 9 10), .ok "1.0.0"⟩
          [] ⟨"p2", "u1", "", some "en"⟩).result
        = .ok
            { content_id := "p2", user_id := "u1",
              label := .Spam, confidence := mkRat 9 10,
              language := "en", detected_language := none,
              model_version := "1.0.0", signals := [] }
      ∧ (ProductionClassifier.classify
          ⟨mkRat 1 2, true, true, false, false, false⟩
          ⟨["en"], .ok "en", .ok (.Spam, mkRat 9 10), .ok "1.0.0"⟩
          [] ⟨"p2", "u1", "", some "en"⟩).mlCalled = true := by
  exact ⟨by decide, by decide⟩

/-- C2 (amended): empty text has no special path.  With ML inference enabled
it is invoked even for the empty string; the result is `Clean` with
confidence `0.1` only because, when the ML confidence does not exceed the
threshold, fusion falls back to the rule engine, and the rule engine matches
no pattern on the empty string. -/
theorem c2_empty_text_not_special (cfg : ClassifierConfig) (env : ClassifyEnv)
    (cache : Cache) (req : ClassificationRequest)
    (lang version : String) (l : ClassificationLabel) (c : Rat)
    (hml : cfg.enable_ml_inference = true)
    (hrb : cfg.enable_rule_based = true)
    (hcache : (if cfg.cache_results then cacheLookup cache req.content_id else none)
      = none)
    (hlang : detect_language env req.language_hint = .ok lang)
    (hmlo : env.mlOutcome = .ok (l, c))
    (hth : cfg.min_confidence_threshold.blt c = false)
    (hver : env.modelVersion = .ok version)
    (htext : req.text = "") :
    (ProductionClassifier.classify cfg env cache req).mlCalled = true
      ∧ ∃ r, (ProductionClassifier.classify cfg env cache req).result = .ok r
          ∧ r.label = ClassificationLabel.Clean ∧ r.confidence = mkRat 1 10 := by
  have hrule : (if cfg.enable_rule_based then RuleBasedClassifier.classify req.text
      else ⟨ClassificationLabel.Clean, mkRat 1 2⟩)
      = ⟨ClassificationLabel.Clean, mkRat 1 10⟩ := by
    rw [hrb, if_pos rfl, htext, ruleClassify_empty]
  refine ⟨?_, ?_⟩
  · simp only [ProductionClassifier.classify, hcache, hlang, process_with_ml, hml,
      if_true, hmlo, hver, hml]
  · have hres : (ProductionClassifier.classify cfg env cache req).result
        = .ok { content_id := req.content_id, user_id := req.user_id,
                label := ClassificationLabel.Clean, confidence := mkRat 1 10,
                language := lang,
                detected_language :=
                  if req.language_hint.isNone then some lang else none,
                model_version := version,
                signals :=
                  process_signals cfg ClassificationLabel.Clean (mkRat 1 10) } := by
      simp only [ProductionClassifier.classify, hcache, hlang, process_with_ml,
        hml, if_true, hmlo, hrule, hth, Bool.false_eq_true, if_false, hver]
    exact ⟨_, hres, rfl, rfl⟩

/-- C2 (witness): the amended theorem evaluated on a concrete empty-text
request whose ML confidence stays below the threshold. -/
theorem c2_witness :
    (ProductionClassifier.classify
        ⟨mkRat 1 2, true, true, false, false, false⟩
        ⟨["en"], .ok "en", .ok (.Spam, mkRat 2 5), .ok "1.0.0"⟩
        [] ⟨"p3", "u1", "", some "en"⟩).mlCalled = true :=
  (c2_empty_text_not_special _ _ _ _ "en" "1.0.0" .Spam (mkRat 2 5)
    rfl rfl (by decide) (by decide) rfl (by decide) rfl rfl).1

/-! ## C3 — `ReportManager::update_report_status` -/

/-- C3 (counterexample): `update_report_status` validates nothing.  The
lifecycle forbids `Pending → Resolved`, yet the call succeeds on a `Pending`
report; and for an id with no report at all the call still returns `Ok(())`
instead of an `UnknownReport` error. -/
theorem c3_counterexample :
    validTransition .Pending .Resolved = false
      ∧ (update_report_status
          [("r1",
            { id := "r1", reporter_id := "u2", target_id := "u3",
              content_id := none, report_type := .Spam, reason := "spam",
              description := none, evidence := [⟨.Text, "x"⟩],
              status := .Pending, priority := .Normal,
              assigned_specialist := none, created_at := 0, updated_at := 0,
              resolved_at := none, metadata := [] })]
          100 "r1" .Resolved).result = .ok ()
      ∧ (update_report_status [] 100 "missing" .UnderInvestigation).result
          = .ok () := by
  exact ⟨by decide, by decide, by decide⟩

/-- C3 (amended): `update_report_status` never returns an error.  An unknown
id is a silent no-op (success, no event); for an existing report any requested
status is accepted without lifecycle validation, `updated_at` is refreshed,
`resolved_at` is set iff the new status is `Resolved` or `Dismissed`, and a
`report.status_updated` event is emitted. -/
theorem c3_update_status_total (reports : ReportMap) (now : Int) (id : String)
    (st : ReportStatus) :
    (update_report_status reports now id st).result = .ok ()
      ∧ (lookupReport reports id = none →
          (update_report_status reports now id st).reports = reports
            ∧ (update_report_status reports now id st).events = [])
      ∧ ∀ r, lookupReport reports id = some r →
          lookupReport (update_report_status reports now id st).reports id
              = some { r with
                        status := st, updated_at := now,
                        resolved_at :=
                          if st = .Resolved ∨ st = .Dismissed then some now
                          else r.resolved_at }
            ∧ (update_report_status reports now id st).events
                = [.status_updated id st now] := by
  unfold update_report_status
  cases h : lookupReport reports id with
  | none => simp [h]
  | some r => simp [h, lookupReport_insertReport_self]

/-- C3 (witness): the amended theorem evaluated on an unknown report id. -/
theorem c3_witness :
    (update_report_status [] 7 "nobody" .Resolved).reports = []
      ∧ (update_report_status [] 7 "nobody" .Resolved).events = [] :=
  (c3_update_status_total [] 7 "nobody" .Resolved).2.1 (by decide)

/-! ## C4 — expiry of stored signals -/

/-- C4 (counterexample): a signal whose `expires_at` is 5 is still returned by
`get_signal` and listed by `get_signals` — the reads consult no clock at all,
so at any time past expiry (say `now = 10 > 5`) the signal is still observed
until the sweeper runs. -/
theorem c4_counterexample :
    get_signal
        [("s1", ⟨"s1", .SuspiciousActivity, "t", "c1", "u1", .Medium,
            mkRat 1 2, [], 0, some 5⟩)] "s1"
      = some ⟨"s1", .SuspiciousActivity, "t", "c1", "u1", .Medium,
          mkRat 1 2, [], 0, some 5⟩
    ∧ (⟨"s1", .SuspiciousActivity, "t", "c1", "u1", .Medium,
          mkRat 1 2, [], 0, some 5⟩ : Signal)
        ∈ get_signals
            [("s1", ⟨"s1", .SuspiciousActivity, "t", "c1", "u1", .Medium,
                mkRat 1 2, [], 0, some 5⟩)] none := by
  exact ⟨by decide, by decide⟩

/-- C4 (amended): expiry is enforced only by the sweeper.  One sweep at time
`now` retains exactly the signals that are unexpired at `now` (no
`expires_at`, or `expires_at > now`), so immediately after a sweep every
readable signal is unexpired; between sweeps the reads perform no expiry
filtering (see the counterexample), so an expired signal disappears only
within one cleanup interval. -/
theorem c4_expiry_only_at_sweep (now : Int) (m : SignalMap) :
    (∀ p ∈ cleanup_sweep now m, ∀ t, p.2.expires_at = some t → now < t)
      ∧ (∀ p ∈ m, (∀ t, p.2.expires_at = some t → now < t) →
          p ∈ cleanup_sweep now m)
      ∧ ∀ id s, get_signal (cleanup_sweep now m) id = some s →
          ∀ t, s.expires_at = some t → now < t := by
  have hkeep : ∀ p ∈ cleanup_sweep now m, ∀ t, p.2.expires_at = some t → now < t := by
    intro p hp t ht
    simp only [cleanup_sweep] at hp
    have h2 := (List.mem_filter.mp hp).2
    rw [ht] at h2
    exact of_decide_eq_true h2
  refine ⟨hkeep, ?_, ?_⟩
  · intro p hp hok
    simp only [cleanup_sweep]
    refine List.mem_filter.mpr ⟨hp, ?_⟩
    cases hexp : p.2.expires_at with
    | none => rfl
    | some t => exact decide_eq_true (hok t hexp)
  · intro id s hs t ht
    rw [get_signal] at hs
    obtain ⟨p, hfind, hsnd⟩ := Option.map_eq_some'.mp hs
    have hmem := List.mem_of_find?_eq_some hfind
    exact hkeep p hmem t (by rw [hsnd, ht])

/-- C4 (witness): the amended theorem evaluated on a one-signal store whose
signal is unexpired at sweep time. -/
theorem c4_witness :
    ("s2", (⟨"s2", .UserReport, "t", "c", "u", .Low, mkRat 1 2, [], 0,
        some 20⟩ : Signal))
      ∈ cleanup_sweep 10
          [("s2", ⟨"s2", .UserReport, "t", "c", "u", .Low, mkRat 1 2, [], 0,
              some 20⟩)] :=
  (c4_expiry_only_at_sweep 10 _).2.1 _ (by decide)
    (by intro t ht; injection ht with h; omega)

/-! ## C10 — `SignalProcessor::add_signal` -/

/-- C10 (confirmed): `add_signal` returns success unconditionally:
the signal is always inserted into the map (so `get_signal` finds it), and a
failing queue send is swallowed — the outcome is still `Ok(())`, the signal
merely never reaches the processing queue (`enqueued = false`), hence is never
rule-processed. -/
theorem c10_add_signal_infallible (store : SignalMap) (queueSendFails : Bool)
    (s : Signal) :
    (add_signal store queueSendFails s).result = .ok ()
      ∧ get_signal (add_signal store queueSendFails s).store s.id = some s
      ∧ (add_signal store queueSendFails s).enqueued = !queueSendFails := by
  exact ⟨rfl, get_signal_signalInsert_self store s, rfl⟩

/-! ## C8 — rule condition evaluation -/

/-- Folding the spec's connective step over conditions that all declare `And`
is plain conjunction. -/
theorem specFold_aux_all_and (s : Signal) :
    ∀ (l : List SignalCondition) (acc : Bool),
      (∀ c ∈ l, c.logical_operator = .And) →
      l.foldl
          (fun acc c' =>
            match c'.logical_operator with
            | .And => acc && condition_matches_signal s c'
            | .Or => acc || condition_matches_signal s c') acc
        = (acc && l.all (fun c => condition_matches_signal s c))
  | [], acc, _ => by simp
  | c :: rest, acc, h => by
    have hc : c.logical_operator = .And := h c (List.mem_cons_self c rest)
    simp only [List.foldl_cons, hc, List.all_cons]
    rw [specFold_aux_all_and s rest (acc && condition_matches_signal s c)
      (fun c' hc' => h c' (List.mem_cons_of_mem c hc'))]
    rw [Bool.and_assoc]

/-- On an all-`And` condition list the spec's left-to-right fold agrees with
plain conjunction. -/
theorem specConditionFold_all_and (s : Signal) (l : List SignalCondition)
    (h : ∀ c ∈ l, c.logical_operator = .And) :
    specConditionFold s l = l.all (fun c => condition_matches_signal s c) := by
  cases l with
  | nil => rfl
  | cons c rest =>
    show rest.foldl _ (condition_matches_signal s c) = _
    rw [specFold_aux_all_and s rest (condition_matches_signal s c)
      (fun c' hc' => h c' (List.mem_cons_of_mem c hc'))]
    simp [List.all_cons]

/-- C8 (counterexample): a rule whose second condition declares `Or`.  Under
the spec's left-to-right fold the rule matches the signal (`false ∨ true`),
but the source's `rule_matches_signal` rejects it, because the loop demands
every condition individually and never reads `logical_operator`. -/
theorem c8_counterexample :
    spec_rule_matches
        ⟨"sg", .UserReport, "t", "c", "u", .Medium, mkRat 1 2, [], 0, none⟩
        ⟨"r", [.UserReport],
          [⟨"severity", .Equals, .str "High", .And⟩,
           ⟨"confidence", .GreaterThan, .num (mkRat 3 10), .Or⟩],
          [], 0, true⟩ = true
      ∧ rule_matches_signal
          ⟨"sg", .UserReport, "t", "c", "u", .Medium, mkRat 1 2, [], 0, none⟩
          ⟨"r", [.UserReport],
            [⟨"severity", .Equals, .str "High", .And⟩,
             ⟨"confidence", .GreaterThan, .num (mkRat 3 10), .Or⟩],
            [], 0, true⟩ = false := by
  exact ⟨by decide, by decide⟩

/-- C8 (amended): the source evaluates a rule's conditions as a pure
conjunction — the rule matches iff the signal's type is among the rule's
`signal_types` and every condition individually matches; the declared
`And`/`Or` connectives are ignored.  Consequently the code agrees with the
spec's left-to-right fold exactly on condition lists whose connectives are all
`And`. -/
theorem c8_conditions_are_conjunction (s : Signal) (r : SignalRule) :
    (rule_matches_signal s r = true
      ↔ r.signal_types.contains s.signal_type = true
          ∧ ∀ c ∈ r.conditions, condition_matches_signal s c = true)
      ∧ ((∀ c ∈ r.conditions, c.logical_operator = .And) →
          rule_matches_signal s r = spec_rule_matches s r) := by
  constructor
  · by_cases hc : r.signal_types.contains s.signal_type = true
    · simp [rule_matches_signal, hc, List.all_eq_true]
    · simp [rule_matches_signal, Bool.eq_false_iff.mpr hc, hc]
  · intro hAnd
    rw [rule_matches_signal, spec_rule_matches,
      specConditionFold_all_and s r.conditions hAnd]
    by_cases hc : r.signal_types.contains s.signal_type = true
    · simp [hc]
    · simp [Bool.eq_false_iff.mpr hc]

/-- C8 (witness): the amended theorem's fold agreement evaluated on a concrete
all-`And` rule. -/
theorem c8_witness :
    rule_matches_signal
        ⟨"sh", .ContentSpam, "t", "c", "u", .High, mkRat 9 10, [], 0, none⟩
        ⟨"r2", [.ContentSpam],
          [⟨"severity", .Equals, .str "High", .And⟩,
           ⟨"confidence", .GreaterThan, .num (mkRat 1 2), .And⟩],
          [], 0, true⟩
      = spec_rule_matches
          ⟨"sh", .ContentSpam, "t", "c", "u", .High, mkRat 9 10, [], 0, none⟩
          ⟨"r2", [.ContentSpam],
            [⟨"severity", .Equals, .str "High", .And⟩,
             ⟨"confidence", .GreaterThan, .num (mkRat 1 2), .And⟩],
            [], 0, true⟩ :=
  (c8_conditions_are_conjunction _ _).2 (by decide)

/-! ## C9 — the classifier result cache -/

/-- A cache with no entry for `k` is unchanged by dropping `k`-keyed entries. -/
theorem cacheFilter_of_lookup_none (cache : Cache) (k : String)
    (h : cacheLookup cache k = none) :
    cache.filter (fun e => e.1 ≠ k) = cache := by
  rw [List.filter_eq_self]
  intro e he
  have hfind : cache.find? (fun e => e.1 = k) = none := by
    rcases hf : cache.find? (fun e => e.1 = k) with _ | p
    · exact hf
    · rw [cacheLookup, hf] at h
      cases h
  have := List.find?_eq_none.mp hfind e he
  simpa using this

/-- C9 (counterexample): three `classify` calls with the same text and the
same language but distinct `content_id`s leave three cache entries.  The cache
is keyed by `content_id`, not by a fingerprint of `(text, language)`; nothing
is evicted, and the size exceeds any claimed bound below the number of
distinct content ids (in particular a bound of 2). -/
theorem c9_counterexample :
    (ProductionClassifier.classify
        ⟨mkRat 1 2, false, true, false, false, true⟩
        ⟨["en"], .ok "en", .ok (.Clean, mkRat 1 2), .ok "1.0.0"⟩
        ((ProductionClassifier.classify
            ⟨mkRat 1 2, false, true, false, false, true⟩
            ⟨["en"], .ok "en", .ok (.Clean, mkRat 1 2), .ok "1.0.0"⟩
            ((ProductionClassifier.classify
                ⟨mkRat 1 2, false, true, false, false, true⟩
                ⟨["en"], .ok "en", .ok (.Clean, mkRat 1 2), .ok "1.0.0"⟩
                [] ⟨"a", "u", "hello friend", some "en"⟩).cache)
            ⟨"b", "u", "hello friend", some "en"⟩).cache)
        ⟨"c", "u", "hello friend", some "en"⟩).cache
      = [("c", { content_id := "c", user_id := "u",
                 label := .Clean, confidence := mkRat 1 10, language := "en",
                 detected_language := none, model_version := "1.0.0",
                 signals := [] }),
         ("b", { content_id := "b", user_id := "u",
                 label := .Clean, confidence := mkRat 1 10, language := "en",
                 detected_language := none, model_version := "1.0.0",
                 signals := [] }),
         ("a", { content_id := "a", user_id := "u",
                 label := .Clean, confidence := mkRat 1 10, language := "en",
                 detected_language := none, model_version := "1.0.0",
                 signals := [] })] := by
  decide

/-- C9 (amended): the result cache is an unbounded `content_id`-keyed map.
Every successful uncached `classify` call adds one entry and evicts nothing:
the cache length grows by exactly one and every prior entry survives. -/
theorem c9_cache_unbounded_no_eviction (cfg : ClassifierConfig)
    (env : ClassifyEnv) (cache : Cache) (req : ClassificationRequest)
    (r : ClassificationResultCore)
    (hc : cfg.cache_results = true)
    (hmiss : cacheLookup cache req.content_id = none)
    (hok : (ProductionClassifier.classify cfg env cache req).result = .ok r) :
    (ProductionClassifier.classify cfg env cache req).cache.length
        = cache.length + 1
      ∧ ∀ e ∈ cache, e ∈ (ProductionClassifier.classify cfg env cache req).cache := by
  have hif : (if cfg.cache_results then cacheLookup cache req.content_id else none)
      = none := by
    rw [hc, if_pos rfl]
    exact hmiss
  have hins : ∃ v, (ProductionClassifier.classify cfg env cache req).cache
      = cacheInsert cache req.content_id v := by
    cases hdet : detect_language env req.language_hint with
    | error e =>
      exfalso
      simp only [ProductionClassifier.classify, hif, hdet] at hok
      cases hok
    | ok lang =>
      cases hml : process_with_ml cfg env with
      | error e =>
        exfalso
        simp only [ProductionClassifier.classify, hif, hdet, hml] at hok
        cases hok
      | ok p =>
        obtain ⟨ml_label, ml_confidence⟩ := p
        cases hver : env.modelVersion with
        | error e =>
          exfalso
          simp only [ProductionClassifier.classify, hif, hdet, hml, hver] at hok
          cases hok
        | ok version =>
          exact ⟨_, by
            simp only [ProductionClassifier.classify, hif, hmiss, hdet, hml,
              hver, hc, if_true]
            rfl⟩
  obtain ⟨v, hv⟩ := hins
  rw [hv, cacheInsert, cacheFilter_of_lookup_none cache req.content_id hmiss]
  constructor
  · rfl
  · intro e he
    exact List.mem_cons_of_mem _ he

/-- C9 (witness): the amended theorem evaluated on one uncached call starting
from the empty cache. -/
theorem c9_witness :
    (ProductionClassifier.classify
        ⟨mkRat 1 2, false, true, false, false, true⟩
        ⟨["en"], .ok "en", .ok (.Clean, mkRat 1 2), .ok "1.0.0"⟩
        [] ⟨"z", "u", "", some "en"⟩).cache.length
      = ([] : Cache).length + 1 :=
  (c9_cache_unbounded_no_eviction
      ⟨mkRat 1 2, false, true, false, false, true⟩
      ⟨["en"], .ok "en", .ok (.Clean, mkRat 1 2), .ok "1.0.0"⟩
      [] ⟨"z", "u", "", some "en"⟩
      { content_id := "z", user_id := "u", label := .Clean,
        confidence := mkRat 1 10, language := "en", detected_language := none,
        model_version := "1.0.0", signals := [] }
      rfl (by decide) (by decide)).1

/-! ## C5 — the sliding-window rate limiter -/

/-- C5 (confirmed): the middleware admits a request iff the counter store
failed (fail-open) or the atomically-executed script finds fewer than `limit`
entries in the window `(now_ms - window_ms, now_ms]`; on an admitted request
with a working store the new timestamp is recorded and the key expiry is set
to `window_ms`.  The well-formedness hypothesis says every stored score is a
past, non-negative timestamp — which is all `ZADD` ever inserts. -/
theorem c5_rate_limiter (now_ms window_ms limit : Int) (s : CounterState)
    (hwf : ∀ x ∈ s.entries, 0 ≤ x ∧ x ≤ now_ms) :
    (rate_limit_call none now_ms window_ms limit).1 = .admitted
      ∧ ((rate_limit_call (some s) now_ms window_ms limit).1 = .admitted
          ↔ (((s.entries.filter
                (fun x => decide (now_ms - window_ms < x))).length : Int)
              < limit))
      ∧ ((rate_limit_call (some s) now_ms window_ms limit).1 = .admitted →
          ∃ s', (rate_limit_call (some s) now_ms window_ms limit).2 = some s'
            ∧ s'.entries.contains now_ms = true
            ∧ s'.expiry_ms = some window_ms) := by
  have hfil : s.entries.filter
        (fun x => !decide (0 ≤ x ∧ x ≤ now_ms - window_ms))
      = s.entries.filter (fun x => decide (now_ms - window_ms < x)) := by
    apply List.filter_congr
    intro x hx
    obtain ⟨h0, hn⟩ := hwf x hx
    have hiff : (0 ≤ x ∧ x ≤ now_ms - window_ms) ↔ ¬(now_ms - window_ms < x) := by
      omega
    rw [decide_eq_decide.mpr hiff, decide_not, Bool.not_not]
  refine ⟨rfl, ?_, ?_⟩
  · by_cases h : limit ≤ ((s.entries.filter
        (fun x => decide (now_ms - window_ms < x))).length : Int)
    · constructor
      · intro hh
        exfalso
        simp only [rate_limit_call, rate_limit_check,
          sliding_window_script] at hh
        simp only [hfil] at hh
        rw [if_pos h] at hh
        simp at hh
      · intro hh
        exact absurd hh (not_lt.mpr h)
    · constructor
      · intro _
        exact not_le.mp h
      · intro _
        simp only [rate_limit_call, rate_limit_check, sliding_window_script]
        simp only [hfil]
        rw [if_neg h]
        simp
  · by_cases h : limit ≤ ((s.entries.filter
        (fun x => decide (now_ms - window_ms < x))).length : Int)
    · intro hh
      exfalso
      simp only [rate_limit_call, rate_limit_check,
        sliding_window_script] at hh
      simp only [hfil] at hh
      rw [if_pos h] at hh
      simp at hh
    · intro _
      simp only [rate_limit_call, rate_limit_check, sliding_window_script]
      simp only [hfil]
      rw [if_neg h]
      refine ⟨_, rfl, ?_, rfl⟩
      by_cases hmem : (s.entries.filter
          (fun x => decide (now_ms - window_ms < x))).contains now_ms = true
      · rw [if_pos hmem]
        exact hmem
      · rw [if_neg hmem]
        simp [List.contains_cons]

/-- C5 (witness): the theorem evaluated on a concrete window.  State `[3, 9]`
at `now = 10` with `window = 5` has one in-window entry, so with `limit = 2`
the request is admitted. -/
theorem c5_witness :
    (rate_limit_call (some ⟨[3, 9], none⟩) 10 5 2).1 = .admitted :=
  (c5_rate_limiter 10 5 2 ⟨[3, 9], none⟩ (by decide)).2.1.mpr (by decide)

/-! ## C6 — the signal derived from an accepted report -/

/-- Finding a key among entries whose keys all differ from a dropped key `k'`
is the same as finding it in the original list. -/
theorem find?_key_filter_ne {α : Type} (m : List (String × α)) (k k' : String)
    (h : k' ≠ k) :
    (m.filter (fun e => e.1 ≠ k')).find? (fun e => e.1 = k)
      = m.find? (fun e => e.1 = k) := by
  have hpred : (fun a : String × α =>
        decide ((!decide (a.1 = k')) = true ∧ decide (a.1 = k) = true))
      = (fun a : String × α => decide (a.1 = k)) := by
    funext a
    by_cases he : a.1 = k
    · simp [he, Ne.symm h]
    · simp [he]
  simp only [List.find?_filter, decide_not]
  rw [hpred]

/-- Metadata lookup of the key just inserted. -/
theorem metaLookup_metaInsert_self (m : List (String × JsonValue)) (k : String)
    (v : JsonValue) : metaLookup (metaInsert m k v) k = some v := by
  simp [metaLookup, metaInsert]

/-- Metadata lookup of a different key sees through an insertion. -/
theorem metaLookup_metaInsert_ne (m : List (String × JsonValue))
    (k k' : String) (v : JsonValue) (h : k' ≠ k) :
    metaLookup (metaInsert m k' v) k = metaLookup m k := by
  rw [metaLookup, metaInsert, List.find?_cons_of_neg _ (by simpa using h),
    find?_key_filter_ne m k k' h, metaLookup]

/-- The priority-to-severity mapping agrees with the table
`{Critical, Urgent} → Critical, High → High, Normal → Medium, Low → Low`. -/
theorem map_priority_table (p : ReportPriority) :
    map_priority_to_severity p
      = (match p with
          | .Critical => .Critical
          | .Urgent => .Critical
          | .High => .High
          | .Normal => .Medium
          | .Low => .Low) := by
  cases p <;> rfl

/-- C6 (confirmed): every report accepted by `create_report` emits exactly one
signal: type `UserReport`, confidence `0.8`, severity from the report priority
per the table, expiry 30 days after emission, `user_id` the report's
`target_id`, and metadata carrying `report_id`, `report_type` and
`reporter_id`. -/
theorem c6_report_signal (cfg : ReportManagerConfig) (reports : ReportMap)
    (now : Int) (rid sid : String) (req : CreateReportRequest) (r : UserReport)
    (hok : (create_report cfg reports now rid sid req).result = .ok r) :
    ∃ sig, (create_report cfg reports now rid sid req).emitted = [sig]
      ∧ sig.signal_type = .UserReport
      ∧ sig.confidence = mkRat 4 5
      ∧ sig.user_id = r.target_id
      ∧ sig.expires_at = some (now + 30 * 86400)
      ∧ sig.severity
          = (match r.priority with
              | .Critical => .Critical
              | .Urgent => .Critical
              | .High => .High
              | .Normal => .Medium
              | .Low => .Low)
      ∧ metaLookup sig.metadata "report_id" = some (.str r.id)
      ∧ metaLookup sig.metadata "report_type"
          = some (.str (reportTypeName r.report_type))
      ∧ metaLookup sig.metadata "reporter_id" = some (.str r.reporter_id) := by
  by_cases h1 : trimmedEmpty req.reason
  · exfalso
    simp [create_report, h1] at hok
  by_cases h2 : req.evidence.isEmpty
  · exfalso
    simp [create_report, h1, h2] at hok
  by_cases h3 : check_rate_limits cfg reports now req.reporter_id
  case neg =>
    exfalso
    simp [create_report, h1, h2, h3] at hok
  have hr : (create_report cfg reports now rid sid req).result
      = .ok { id := rid, reporter_id := req.reporter_id,
              target_id := req.target_id, content_id := req.content_id,
              report_type := req.report_type, reason := req.reason,
              description := req.description, evidence := req.evidence,
              status := .Pending, priority := calculate_priority req,
              assigned_specialist := none, created_at := now,
              updated_at := now, resolved_at := none,
              metadata := req.metadata } := by
    simp [create_report, h1, h2, h3]
  have hreq : r = { id := rid, reporter_id := req.reporter_id,
                    target_id := req.target_id, content_id := req.content_id,
                    report_type := req.report_type, reason := req.reason,
                    description := req.description, evidence := req.evidence,
                    status := .Pending, priority := calculate_priority req,
                    assigned_specialist := none, created_at := now,
                    updated_at := now, resolved_at := none,
                    metadata := req.metadata } := by
    rw [hok] at hr
    exact (Except.ok.injEq _ _).mp hr
  have hemit : (create_report cfg reports now rid sid req).emitted
      = [generate_report_signal now sid r] := by
    rw [hreq]
    simp [create_report, h1, h2, h3]
  refine ⟨generate_report_signal now sid r, hemit, rfl, rfl, rfl, rfl,
    (map_priority_table r.priority ▸ rfl), ?_, ?_, ?_⟩
  · rw [generate_report_signal]
    rw [metaLookup_metaInsert_ne _ _ _ _ (by decide),
      metaLookup_metaInsert_ne _ _ _ _ (by decide),
      metaLookup_metaInsert_self]
  · rw [generate_report_signal]
    rw [metaLookup_metaInsert_ne _ _ _ _ (by decide),
      metaLookup_metaInsert_self]
  · rw [generate_report_signal]
    rw [metaLookup_metaInsert_self]

/-- C6 (witness): the theorem evaluated on a concrete accepted `HateSpeech`
report. -/
theorem c6_witness :
    (create_report ⟨10⟩ [] 0 "r1" "s1"
        ⟨"u-rep", "u-tgt", some "c9", .HateSpeech, "slur", none,
          [⟨.Text, "x"⟩], []⟩).emitted.length = 1 := by
  obtain ⟨sig, hsig, hrest⟩ :=
    c6_report_signal ⟨10⟩ [] 0 "r1" "s1"
      ⟨"u-rep", "u-tgt", some "c9", .HateSpeech, "slur", none,
        [⟨.Text, "x"⟩], []⟩
      { id := "r1", reporter_id := "u-rep", target_id := "u-tgt",
        content_id := some "c9", report_type := .HateSpeech, reason := "slur",
        description := none, evidence := [⟨.Text, "x"⟩], status := .Pending,
        priority := .High, assigned_specialist := none, created_at := 0,
        updated_at := 0, resolved_at := none, metadata := [] }
      (by decide)
  rw [hsig]
  rfl

/-! ## C7 — `RuleBasedClassifier::classify` -/

/-- A matched entry contributes a strictly positive clamped confidence. -/
theorem clampedConf_pos (m : String → String → Bool) (text : String)
    (e : ClassificationLabel × List String)
    (h : 0 < countMatches m text e.2) : 0 < clampedConf m text e := by
  have hlen : 0 < e.2.length :=
    lt_of_lt_of_le h (List.length_filter_le _ _)
  rw [clampedConf, ratMin_eq_min]
  apply lt_min
  · rw [Rat.mkRat_eq_divInt, Rat.divInt_eq_div]
    apply div_pos
    · exact_mod_cast h
    · exact_mod_cast hlen
  · norm_num

/-- What the scoring fold of `RuleBasedClassifier::classify` computes, for any
iteration order and any starting accumulator: either no entry improved on the
start (and every matched entry's clamped confidence is bounded by it), or the
result carries the label and clamped confidence of some matched entry that
strictly improved on the start and dominates every matched entry. -/
theorem ruleFold_characterisation (m : String → String → Bool) (text : String) :
    ∀ (pats : List (ClassificationLabel × List String))
      (l0 : ClassificationLabel) (c0 : Rat),
      (pats.foldl (ruleStep m text) (l0, c0) = (l0, c0)
          ∧ ∀ e ∈ pats, 0 < countMatches m text e.2 → clampedConf m text e ≤ c0)
      ∨ (∃ e ∈ pats, 0 < countMatches m text e.2
          ∧ (pats.foldl (ruleStep m text) (l0, c0)).1 = e.1
          ∧ (pats.foldl (ruleStep m text) (l0, c0)).2 = clampedConf m text e
          ∧ c0 < clampedConf m text e
          ∧ ∀ e' ∈ pats, 0 < countMatches m text e'.2 →
              clampedConf m text e' ≤ (pats.foldl (ruleStep m text) (l0, c0)).2)
  | [], l0, c0 => Or.inl ⟨rfl, by simp⟩
  | e₀ :: rest, l0, c0 => by
    rw [List.foldl_cons]
    by_cases hm : 0 < countMatches m text e₀.2
    · by_cases hlt : c0 < clampedConf m text e₀
      · have hblt : (c0.blt (ratMin
            (mkRat (countMatches m text e₀.2) e₀.2.length) (mkRat 9 10))) = true :=
          hlt
        have hstep : ruleStep m text (l0, c0) e₀ = (e₀.1, clampedConf m text e₀) := by
          simp only [ruleStep]
          rw [if_pos hm, if_pos hblt]
          rfl
        rw [hstep]
        rcases ruleFold_characterisation m text rest e₀.1 (clampedConf m text e₀)
          with ⟨heq, hbound⟩ | ⟨e, hmem, hme, h1, h2, hc, hbound⟩
        · refine Or.inr ⟨e₀, List.mem_cons_self e₀ rest, hm, ?_, ?_, hlt, ?_⟩
          · rw [heq]
          · rw [heq]
          · intro e' he' hm'
            rcases List.mem_cons.mp he' with rfl | hmem'
            · simp [heq]
            · have := hbound e' hmem' hm'
              simpa [heq] using this
        · refine Or.inr ⟨e, List.mem_cons_of_mem e₀ hmem, hme, h1, h2,
            lt_trans hlt hc, ?_⟩
          intro e' he' hm'
          rcases List.mem_cons.mp he' with rfl | hmem'
          · rw [h2]
            exact le_of_lt hc
          · exact hbound e' hmem' hm'
      · have hblt : ¬((c0.blt (ratMin
            (mkRat (countMatches m text e₀.2) e₀.2.length) (mkRat 9 10))) = true) :=
          hlt
        have hstep : ruleStep m text (l0, c0) e₀ = (l0, c0) := by
          simp only [ruleStep]
          rw [if_pos hm, if_neg hblt]
        rw [hstep]
        have hle : clampedConf m text e₀ ≤ c0 := le_of_not_lt hlt
        rcases ruleFold_characterisation m text rest l0 c0
          with ⟨heq, hbound⟩ | ⟨e, hmem, hme, h1, h2, hc, hbound⟩
        · refine Or.inl ⟨heq, ?_⟩
          intro e' he' hm'
          rcases List.mem_cons.mp he' with rfl | hmem'
          · exact hle
          · exact hbound e' hmem' hm'
        · refine Or.inr ⟨e, List.mem_cons_of_mem e₀ hmem, hme, h1, h2, hc, ?_⟩
          intro e' he' hm'
          rcases List.mem_cons.mp he' with rfl | hmem'
          · rw [h2]
            exact le_trans hle (le_of_lt hc)
          · exact hbound e' hmem' hm'
    · have hstep : ruleStep m text (l0, c0) e₀ = (l0, c0) := by
        simp only [ruleStep]
        rw [if_neg hm]
      rw [hstep]
      rcases ruleFold_characterisation m text rest l0 c0
        with ⟨heq, hbound⟩ | ⟨e, hmem, hme, h1, h2, hc, hbound⟩
      · refine Or.inl ⟨heq, ?_⟩
        intro e' he' hm'
        rcases List.mem_cons.mp he' with rfl | hmem'
        · exact absurd hm' hm
        · exact hbound e' hmem' hm'
      · refine Or.inr ⟨e, List.mem_cons_of_mem e₀ hmem, hme, h1, h2, hc, ?_⟩
        intro e' he' hm'
        rcases List.mem_cons.mp he' with rfl | hmem'
        · exact absurd hm' hm
        · exact hbound e' hmem' hm'

/-- C7 (counterexample): the tie-break is an artefact of the `HashMap`'s
unspecified iteration order, not of label enumeration order.  On the text
`hate kill`, `HateSpeech` and `Violence` tie with clamped ratio `1/5` each;
iterating the same map entries in the order
`[Violence, HateSpeech, Spam]` — a permutation of the pattern map — yields
`Violence`, whereas insertion order (which here coincides with label
enumeration order, the spec's tie-break) yields `HateSpeech`. -/
theorem c7_counterexample :
    List.Perm
        [(ClassificationLabel.Violence, violencePatterns),
         (ClassificationLabel.HateSpeech, hateSpeechPatterns),
         (ClassificationLabel.Spam, spamPatterns)]
        rulePatternMap
      ∧ (ruleClassify patternMatches
          [(ClassificationLabel.Violence, violencePatterns),
           (ClassificationLabel.HateSpeech, hateSpeechPatterns),
           (ClassificationLabel.Spam, spamPatterns)] "hate kill").label
          = ClassificationLabel.Violence
      ∧ (RuleBasedClassifier.classify "hate kill").label
          = ClassificationLabel.HateSpeech
      ∧ clampedConf patternMatches "hate kill"
            (ClassificationLabel.HateSpeech, hateSpeechPatterns)
          = clampedConf patternMatches "hate kill"
            (ClassificationLabel.Violence, violencePatterns) := by
  exact ⟨by decide, by decide, by decide, by decide⟩

/-- C7 (amended): for every iteration order of the pattern map and every match
predicate, `classify` returns `Clean` with confidence `0.1` when no pattern of
any entry matches; otherwise it returns the label of a matched entry whose
clamped ratio `min (matches / |patterns|) 0.9` is maximal among matched
entries, with confidence `max 0.1` of that clamped ratio.  Ties between equal
ratios go to the entry met first in the iteration order, which for the
source's `HashMap` is unspecified — not necessarily label enumeration order
(see the counterexample). -/
theorem c7_rule_classifier (m : String → String → Bool)
    (pats : List (ClassificationLabel × List String)) (text : String) :
    ((∀ e ∈ pats, countMatches m text e.2 = 0) →
        ruleClassify m pats text = ⟨.Clean, mkRat 1 10⟩)
      ∧ ∀ e₀ ∈ pats, 0 < countMatches m text e₀.2 →
          ∃ e ∈ pats, 0 < countMatches m text e.2
            ∧ (ruleClassify m pats text).label = e.1
            ∧ (ruleClassify m pats text).confidence
                = ratMax (clampedConf m text e) (mkRat 1 10)
            ∧ ∀ e' ∈ pats, 0 < countMatches m text e'.2 →
                clampedConf m text e' ≤ clampedConf m text e := by
  constructor
  · intro hz
    rcases ruleFold_characterisation m text pats .Clean 0
      with ⟨heq, _⟩ | ⟨e, hmem, hme, _⟩
    · rw [ruleClassify, heq]
      have hmax : ratMax (0 : Rat) (mkRat 1 10) = mkRat 1 10 := by decide
      rw [hmax]
    · exact absurd (hz e hmem) (Nat.pos_iff_ne_zero.mp hme)
  · intro e₀ hmem₀ hm₀
    rcases ruleFold_characterisation m text pats .Clean 0
      with ⟨_, hbound⟩ | ⟨e, hmem, hme, h1, h2, _, hbound⟩
    · exact absurd (hbound e₀ hmem₀ hm₀)
        (not_le.mpr (clampedConf_pos m text e₀ hm₀))
    · refine ⟨e, hmem, hme, ?_, ?_, ?_⟩
      · exact h1
      · show ratMax ((pats.foldl (ruleStep m text) (.Clean, 0)).2) (mkRat 1 10) = _
        rw [h2]
      · intro e' he' hm'
        rw [← h2]
        exact hbound e' he' hm'

/-- C7 (witness): the amended theorem's no-match branch evaluated on a text
matching no pattern. -/
theorem c7_witness :
    ruleClassify patternMatches rulePatternMap "qqq"
      = ⟨ClassificationLabel.Clean, mkRat 1 10⟩ :=
  (c7_rule_classifier patternMatches rulePatternMap "qqq").1 (by decide)

end Moderation
